import Mathlib

/-!
Shallow embedding of the KimiCode-GUI core (src-tauri/src/llm.rs,
session.rs, main.rs): the step-bounded orchestration loop `stream_chat`,
the approval gate `request_approval`, the tool dispatcher `execute_tool`,
the transcript reconstructor `SessionManager::load_messages`, and the
inbound commands `tool_approval_respond` and `cancel_chat`.

External effects (the HTTP model call, the tokio cancellation channel,
approval decisions, uuid generation, the concrete tool collaborators in
tools.rs, and serde_json string parsing) are passed in as oracles; the
control flow, field extraction, event emission and state mutation are
translated statement by statement from the Rust source.
-/

/-- Model of serde_json::Value.  Numbers are integers (the source only
uses as_u64 / as_str / as_bool / as_array accessors on them). -/
inductive Json where
  | null
  | bool (b : Bool)
  | num (n : Int)
  | str (s : String)
  | arr (elems : List Json)
  | obj (fields : List (String × Json))

namespace Json

/-- Value::get(&str): field lookup on an object, None otherwise. -/
def get : Json → String → Option Json
  | obj fields, key => fields.lookup key
  | _, _ => none

/-- Value::get(usize): index lookup on an array, None otherwise. -/
def getIdx : Json → Nat → Option Json
  | arr elems, i => elems.get? i
  | _, _ => none

/-- Value::as_str. -/
def asStr : Json → Option String
  | str s => some s
  | _ => none

/-- Value::as_u64 (integers only; non-negative). -/
def asU64 : Json → Option Nat
  | num n => if 0 ≤ n then some n.toNat else none
  | _ => none

/-- Value::as_bool. -/
def asBool : Json → Option Bool
  | bool b => some b
  | _ => none

/-- Value::as_array. -/
def asArr : Json → Option (List Json)
  | arr elems => some elems
  | _ => none

end Json

/-! ## Transcript reconstructor (session.rs, SessionManager::load_messages)

A wire log line either fails serde parsing (or is blank) — modelled as
`none` and skipped — or yields a Json record fed to the state machine. -/

/-- A reconstructed message: role and content.  The Rust `Message` also
carries a wall-clock timestamp (chrono::Utc::now, not statable) and a
`tool_calls` field the reconstructor always sets to None; both dropped. -/
structure Message where
  role : String
  content : String
deriving Repr, DecidableEq

/-- Reconstruction state: emitted messages, current accumulation role
(`current_role`), and the assistant text buffer (`current_content`). -/
structure RState where
  messages : List Message
  role : Option String
  buf : String
deriving Repr, DecidableEq

/-- record.message.type as a string, as read by load_messages. -/
def msgType (j : Json) : Option String :=
  ((j.get "message").bind (fun m => m.get "type")).bind Json.asStr

/-- record.message.payload. -/
def payloadOf (j : Json) : Option Json :=
  (j.get "message").bind (fun m => m.get "payload")

/-- TurnBegin user text: payload.user_input iterated with
find_map(|item| item.get("text").and_then(as_str)), defaulted to "".
Note: this takes the text of the FIRST item carrying a string `text`
field, even when that text is empty. -/
def firstUserText (j : Json) : String :=
  ((((payloadOf j).bind (fun p => p.get "user_input")).bind Json.asArr).bind
    (fun items => items.findSome? (fun item => (item.get "text").bind Json.asStr))).getD ""

/-- StepEnd / TurnEnd handler: flush the buffer as an assistant message
when the role is "assistant" and the buffer is non-empty. -/
def flushAssistant (st : RState) : RState :=
  match st.role with
  | some r =>
      if r = "assistant" ∧ st.buf ≠ "" then
        { st with messages := st.messages ++ [⟨"assistant", st.buf⟩], buf := "" }
      else st
  | none => st

/-- One parsed wire record applied to the reconstruction state — the
match over record.message.type in load_messages. -/
def rstep (st : RState) (j : Json) : RState :=
  match msgType j with
  | some "TurnBegin" =>
      let ms :=
        match st.role with
        | some r => if st.buf ≠ "" then st.messages ++ [⟨r, st.buf⟩] else st.messages
        | none => st.messages
      let t := firstUserText j
      let ms := if t ≠ "" then ms ++ [⟨"user", t⟩] else ms
      ⟨ms, some "assistant", ""⟩
  | some "ContentPart" =>
      if st.role = some "assistant" then
        match ((payloadOf j).bind (fun p => p.get "type")).bind Json.asStr with
        | some "text" =>
            match ((payloadOf j).bind (fun p => p.get "text")).bind Json.asStr with
            | some t => { st with buf := st.buf ++ t }
            | _ => st
        | _ => st
      else st
  | some "ToolCall" => st
  | some "StepEnd" => flushAssistant st
  | some "TurnEnd" => flushAssistant st
  | _ => st

/-- SessionManager::load_messages over the parsed lines of wire.jsonl:
`none` is a blank or serde-unparsable line (skipped), `some j` a parsed
record.  Ends with the final assistant-buffer flush. -/
def load_messages (input : List (Option Json)) : List Message :=
  let st := input.foldl
    (fun st line => match line with | none => st | some j => rstep st j)
    ⟨[], none, ""⟩
  if st.role = some "assistant" ∧ st.buf ≠ "" then
    st.messages ++ [⟨"assistant", st.buf⟩]
  else st.messages

/-- Wire record constructor: TurnBegin with the given user_input items. -/
def mkTurnBegin (items : List Json) : Json :=
  Json.obj [("message", Json.obj
    [("type", Json.str "TurnBegin"),
     ("payload", Json.obj [("user_input", Json.arr items)])])]

/-- Wire record constructor: ContentPart of the given payload type. -/
def mkContentPart (ty text : String) : Json :=
  Json.obj [("message", Json.obj
    [("type", Json.str "ContentPart"),
     ("payload", Json.obj [("type", Json.str ty), ("text", Json.str text)])])]

/-- Wire record constructor: a record with just a type tag. -/
def mkTagged (ty : String) : Json :=
  Json.obj [("message", Json.obj [("type", Json.str ty)])]

/-- The concrete wire log of the reconstruction example in the spec. -/
def exampleWire : List (Option Json) :=
  [some (mkTurnBegin [Json.obj [("text", Json.str "hi")]]),
   some (mkContentPart "text" "hello "),
   some (mkContentPart "text" "world"),
   some (mkTagged "TurnEnd")]

/-- A wire log where the first text item of TurnBegin is empty while a later
item holds non-empty text. -/
def emptyFirstWire : List (Option Json) :=
  [some (mkTurnBegin [Json.obj [("text", Json.str "")],
                      Json.obj [("text", Json.str "hi")]])]

/-! ## Orchestration loop (llm.rs, stream_chat)

The loop is embedded as a pure state machine.  External effects are
oracles: `model` gives the outcome of the i-th model round (Except
collapsing transport, HTTP-status and body-parse failures into the
error string returned by the Rust code); `cancel` gives the value
observed at the k-th cancellation checkpoint (try_recv at loop top,
the select racing the model call, try_recv before each tool call);
`approval` gives the outcome of the k-th approval wait; `fresh` the
k-th synthesized uuid; `collab` the results of the external tool
collaborators in tools.rs (out of scope, interface only); `parse` the
serde_json string-parse, and `parseEditList`/`parseEdit` the serde
deserializations into tools::ReplaceEdit. -/

/-- tools::ToolOutput. -/
structure ToolOutput where
  ok : Bool
  summary : String
  output : String
deriving Repr, DecidableEq

/-- tools::ReplaceEdit — tools.rs is not part of the modelled core;
the deserialized edit is kept abstract as its raw Json payload. -/
structure ReplaceEdit where
  raw : Json

/-- One invocation of an external tool collaborator (tools.rs), with
the exact arguments execute_tool passes it. -/
inductive CollabCall where
  | readFile (workDir path : String) (lineOffset nLines : Nat)
  | runShell (workDir command : String) (timeoutSecs : Nat)
  | writeFile (workDir path content mode : String)
  | strReplaceFile (workDir path : String) (edits : List ReplaceEdit)
  | searchWeb (configPath : Option String) (toolCallId query : String)
      (limit : Nat) (includeContent : Bool)
  | fetchUrl (configPath : Option String) (toolCallId url : String)

/-- Outcome of one approval wait: an external decision (false also
covers a dropped decision channel, result.unwrap_or(false)), or the
cancellation token winning the select. -/
inductive ApprovalOutcome where
  | decided (b : Bool)
  | cancelledDuring

/-- The external effects stream_chat interacts with. -/
structure Oracles where
  model : Nat → Except String Json
  cancel : Nat → Bool
  approval : Nat → ApprovalOutcome
  fresh : Nat → String
  collab : CollabCall → ToolOutput
  parse : String → Option Json
  parseEditList : Json → Option (List ReplaceEdit)
  parseEdit : Json → Option ReplaceEdit

/-- The per-turn parameters of stream_chat that the loop reads. -/
structure TurnCfg where
  sessionId : String
  autoApprove : Bool
  workDir : String
  configPath : Option String

/-- StreamEvent payloads emitted on the chat event channel, one
constructor per event kind the loop produces. -/
inductive Event where
  | thinking (sessionId content : String)
  | toolStatus (sessionId toolCallId state name label : String)
      (ok : Option Bool) (summary : Option String)
  | toolApproval (sessionId requestId name : String) (args : Json)
  | toolResult (sessionId toolCallId name : String) (ok : Bool)
      (summary output : String)
  | chunk (sessionId content : String)
  | done (sessionId : String) (promptTokens completionTokens totalTokens : Nat)
  | cancelled (sessionId : String)

/-- A conversation entry in the `messages` vector sent to the model.
The serialized JSON content of the tool entry is kept structured. -/
inductive Msg where
  | system (content : String)
  | user (content : String)
  | assistant (content : String) (toolCalls : List Json) (reasoning : Option Json)
  | tool (toolCallId : String) (result : ToolOutput)

/-- Loop-local and shared state threaded through the turn: the
conversation, the events emitted so far, the pending-approvals map
(keys only; the decision senders carry no further observable state),
the dispatcher invocations made so far (instrumentation for the
never-dispatched property), and the oracle cursors: cancellation
checkpoints, approval waits, fresh uuids consumed, model rounds made. -/
structure LoopState where
  messages : List Msg
  events : List Event
  approvals : List String
  execCalls : List (String × Json)
  ck : Nat
  ak : Nat
  fk : Nat
  rounds : Nat

def pushEvent (st : LoopState) (e : Event) : LoopState :=
  { st with events := st.events ++ [e] }

/-- Emit `cancelled` for this session and stop. -/
def cancelStop (cfg : TurnCfg) (st : LoopState) : LoopState :=
  pushEvent st (.cancelled cfg.sessionId)

/-- llm.rs needs_approval: the gated tool names. -/
def needs_approval (toolName : String) : Bool :=
  toolName = "Shell" || toolName = "WriteFile" || toolName = "StrReplaceFile"

/-- llm.rs tool_label. -/
def tool_label (name : String) (args : Json) : String :=
  match name with
  | "ReadFile" =>
      match (args.get "path").bind Json.asStr with
      | some p => "正在读取 " ++ p
      | none => "正在读取文件"
  | "Shell" =>
      match (args.get "command").bind Json.asStr with
      | some cmd => "正在执行 " ++ cmd
      | none => "正在执行命令"
  | "WriteFile" =>
      match (args.get "path").bind Json.asStr with
      | some p => "正在写入 " ++ p
      | none => "正在写入文件"
  | "StrReplaceFile" =>
      match (args.get "path").bind Json.asStr with
      | some p => "正在修改 " ++ p
      | none => "正在修改文件"
  | "SearchWeb" =>
      match (args.get "query").bind Json.asStr with
      | some q => "正在搜索 " ++ q
      | none => "正在搜索网络"
  | "FetchURL" =>
      match (args.get "url").bind Json.asStr with
      | some u => "正在抓取 " ++ u
      | none => "正在抓取网页"
  | _ => "正在执行 " ++ name

/-- llm.rs execute_tool: total dispatch from tool name and argument
payload to a ToolOutput, delegating to the tools.rs collaborators. -/
def execute_tool (O : Oracles) (toolCallId name : String) (args : Json)
    (workDir : String) (configPath : Option String) : ToolOutput :=
  match name with
  | "ReadFile" =>
      match (args.get "path").bind Json.asStr with
      | none => ⟨false, "Missing path", ""⟩
      | some path =>
          let lineOffset := ((args.get "line_offset").bind Json.asU64).getD 1
          let nLines := ((args.get "n_lines").bind Json.asU64).getD 1000
          O.collab (.readFile workDir path lineOffset nLines)
  | "Shell" =>
      match (args.get "command").bind Json.asStr with
      | none => ⟨false, "Missing command", ""⟩
      | some command =>
          let timeoutSecs := ((args.get "timeout").bind Json.asU64).getD 60
          O.collab (.runShell workDir command timeoutSecs)
  | "WriteFile" =>
      match (args.get "path").bind Json.asStr with
      | none => ⟨false, "Missing path", ""⟩
      | some path =>
          match (args.get "content").bind Json.asStr with
          | none => ⟨false, "Missing content", ""⟩
          | some content =>
              let mode := ((args.get "mode").bind Json.asStr).getD "overwrite"
              O.collab (.writeFile workDir path content mode)
  | "StrReplaceFile" =>
      match (args.get "path").bind Json.asStr with
      | none => ⟨false, "Missing path", ""⟩
      | some path =>
          let edits : List ReplaceEdit :=
            match args.get "edit" with
            | some editValue =>
                if (editValue.asArr).isSome then
                  (O.parseEditList editValue).getD []
                else
                  match O.parseEdit editValue with
                  | some e => [e]
                  | none => []
            | none => []
          if edits.isEmpty then ⟨false, "Missing edits", ""⟩
          else O.collab (.strReplaceFile workDir path edits)
  | "SearchWeb" =>
      match (args.get "query").bind Json.asStr with
      | none => ⟨false, "Missing query", ""⟩
      | some query =>
          let limit := ((args.get "limit").bind Json.asU64).getD 5
          let includeContent := ((args.get "include_content").bind Json.asBool).getD false
          O.collab (.searchWeb configPath toolCallId query limit includeContent)
  | "FetchURL" =>
      match (args.get "url").bind Json.asStr with
      | none => ⟨false, "Missing URL", ""⟩
      | some url => O.collab (.fetchUrl configPath toolCallId url)
  | _ => ⟨false, "Unknown tool: " ++ name, ""⟩

/-- main.rs tool_approval_respond over the pending-approvals map:
remove the entry and deliver the decision, or report not-found. -/
def tool_approval_respond (approvals : List String) (requestId : String) :
    List String × Except String Unit :=
  if requestId ∈ approvals then
    (approvals.filter (fun k => k ≠ requestId), .ok ())
  else
    (approvals, .error "Approval request not found")

/-- llm.rs request_approval: register the decision slot under
session_id:tool_call_id, emit tool_approval, then wait.  On the
cancellation token winning, the entry is removed and Err "Cancelled"
returned; on a decision, the responder has already removed the entry
(tool_approval_respond removes before sending) and the decision value
is returned. -/
def request_approval (O : Oracles) (ak : Nat) (sessionId toolCallId name : String)
    (args : Json) (approvals : List String) :
    List String × List Event × Except String Bool :=
  let requestId := sessionId ++ ":" ++ toolCallId
  let registered := if requestId ∈ approvals then approvals else approvals ++ [requestId]
  let evts := [Event.toolApproval sessionId requestId name args]
  match O.approval ak with
  | .cancelledDuring =>
      (registered.filter (fun k => k ≠ requestId), evts, .error "Cancelled")
  | .decided b =>
      (registered.filter (fun k => k ≠ requestId), evts, .ok b)

/-- tool_call.get("id").and_then(as_str).unwrap_or(""). -/
def rawCallId (tc : Json) : String :=
  ((tc.get "id").bind Json.asStr).getD ""

/-- tool_call.get("function").cloned().unwrap_or_default(). -/
def callFunction (tc : Json) : Json :=
  (tc.get "function").getD Json.null

/-- function.get("name").and_then(as_str).unwrap_or(""). -/
def callName (tc : Json) : String :=
  (((callFunction tc).get "name").bind Json.asStr).getD ""

/-- function.get("arguments").and_then(as_str).unwrap_or("\x7b\x7d"). -/
def rawArguments (tc : Json) : String :=
  (((callFunction tc).get "arguments").bind Json.asStr).getD "\x7b\x7d"

/-- serde_json::from_str(arguments_raw).unwrap_or(json!(\x7b\x7d)):
a failed parse of the arguments string becomes the empty object. -/
def parsedArgs (O : Oracles) (tc : Json) : Json :=
  (O.parse (rawArguments tc)).getD (Json.obj [])

/-- The tool-call id after synthesis: the model-assigned id, or a
fresh uuid when it is empty. -/
def effCallId (O : Oracles) (fk : Nat) (tc : Json) : String :=
  if rawCallId tc = "" then O.fresh fk else rawCallId tc

/-- The tail of one tool call once its approval value is known:
tool_status events around dispatch on approval, or the synthesized
rejected ToolOutput without dispatch; then the tool_result event and
the `tool` conversation entry. -/
def finishCall (O : Oracles) (cfg : TurnCfg) (st : LoopState)
    (callId name : String) (args : Json) (approved : Bool) : LoopState :=
  let label := tool_label name args
  let afterExec :=
    if approved then
      let st1 := pushEvent st (.toolStatus cfg.sessionId callId "start" name label none none)
      let out := execute_tool O callId name args cfg.workDir cfg.configPath
      let st2 := { st1 with execCalls := st1.execCalls ++ [(name, args)] }
      (pushEvent st2 (.toolStatus cfg.sessionId callId "end" name label (some out.ok) (some out.summary)), out)
    else
      let out : ToolOutput := ⟨false, "User rejected tool request.", ""⟩
      (pushEvent st (.toolStatus cfg.sessionId callId "end" name label (some false) (some "User rejected tool request.")), out)
  let st3 := afterExec.1
  let out := afterExec.2
  let st4 := pushEvent st3 (.toolResult cfg.sessionId callId name out.ok out.summary out.output)
  { st4 with messages := st4.messages ++ [.tool callId out] }

/-- One tool call inside the per-round for loop: cancellation check,
field extraction, id synthesis, the approval gate for gated tools
without auto-approve, then finishCall.  `.inl` is the terminal
cancelled outcome (the Rust early return Ok after emitting
`cancelled`); `.inr` continues with the next call. -/
def runCall (O : Oracles) (cfg : TurnCfg) (st : LoopState) (tc : Json) :
    LoopState ⊕ LoopState :=
  if O.cancel st.ck then .inl (cancelStop cfg st)
  else
    let st1 : LoopState := { st with ck := st.ck + 1 }
    let name := callName tc
    let argsValue := parsedArgs O tc
    let callId := effCallId O st1.fk tc
    let st2 : LoopState := if rawCallId tc = "" then { st1 with fk := st1.fk + 1 } else st1
    if needs_approval name && !cfg.autoApprove then
      match request_approval O st2.ak cfg.sessionId callId name argsValue st2.approvals with
      | (approvals', evts, .error _) =>
          .inl (cancelStop cfg
            { st2 with approvals := approvals', ak := st2.ak + 1, events := st2.events ++ evts })
      | (approvals', evts, .ok b) =>
          .inr (finishCall O cfg
            { st2 with approvals := approvals', ak := st2.ak + 1, events := st2.events ++ evts }
            callId name argsValue b)
    else
      .inr (finishCall O cfg st2 callId name argsValue true)

/-- The sequential for loop over the tool calls of one round. -/
def runCalls (O : Oracles) (cfg : TurnCfg) : LoopState → List Json → LoopState ⊕ LoopState
  | st, [] => .inr st
  | st, tc :: rest =>
      match runCall O cfg st tc with
      | .inl stT => .inl stT
      | .inr st' => runCalls O cfg st' rest

/-- data.get("choices").and_then(get(0)).and_then(get("message")). -/
def extractMessage (data : Json) : Option Json :=
  ((data.get "choices").bind (fun c => c.getIdx 0)).bind (fun v => v.get "message")

/-- message.get("tool_calls").and_then(as_array), flattened: absent or
non-array behaves as the empty list (both fall through to the
final-content branch). -/
def toolCallsOf (msg : Json) : List Json :=
  ((msg.get "tool_calls").bind Json.asArr).getD []

/-- The for loop of stream_chat, by remaining step budget.  Exhausted
budget is Err "Exceeded maximum tool steps"; a failed round fails the
turn; a tool round appends the assistant entry then runs the calls;
a non-tool round with non-empty content emits chunk and done and
stops, and with empty content falls through to the next round. -/
def runLoop (O : Oracles) (cfg : TurnCfg) : Nat → LoopState → LoopState × Except String Unit
  | 0, _st => (_st, .error "Exceeded maximum tool steps")
  | fuel + 1, st =>
    if O.cancel st.ck then (cancelStop cfg st, .ok ())
    else
      let st1 : LoopState := { st with ck := st.ck + 1 }
      if O.cancel st1.ck then (cancelStop cfg st1, .ok ())
      else
        let st2 : LoopState := { st1 with ck := st1.ck + 1 }
        match O.model st2.rounds with
        | .error e => ({ st2 with rounds := st2.rounds + 1 }, .error e)
        | .ok data =>
          let st3 : LoopState := { st2 with rounds := st2.rounds + 1 }
          match extractMessage data with
          | none => (st3, .error "No message in response")
          | some msg =>
            let reasoning := ((msg.get "reasoning_content").bind Json.asStr).getD ""
            let st4 := if reasoning = "" then st3 else pushEvent st3 (.thinking cfg.sessionId reasoning)
            let content := ((msg.get "content").bind Json.asStr).getD ""
            let tcs := toolCallsOf msg
            if tcs.isEmpty then
              if content = "" then runLoop O cfg fuel st4
              else
                let usage := (data.get "usage").getD (Json.obj [])
                let pt := ((usage.get "prompt_tokens").bind Json.asU64).getD 0
                let ct := ((usage.get "completion_tokens").bind Json.asU64).getD 0
                let tt := ((usage.get "total_tokens").bind Json.asU64).getD (pt + ct)
                (pushEvent (pushEvent st4 (.chunk cfg.sessionId content)) (.done cfg.sessionId pt ct tt), .ok ())
            else
              let st5 : LoopState :=
                { st4 with messages := st4.messages ++ [.assistant content tcs (msg.get "reasoning_content")] }
              match runCalls O cfg st5 tcs with
              | .inl stT => (stT, .ok ())
              | .inr st6 => runLoop O cfg fuel st6

/-- llm.rs MAX_TOOL_STEPS. -/
def MAX_TOOL_STEPS : Nat := 20

/-- llm.rs parse_user_input (identity for now, per the source). -/
def parse_user_input (input : String) : String := input

/-- The conversation at loop entry: the generated system preamble
(filesystem-derived, passed in) and the user message. -/
def initState (systemPrompt userMessage : String) (approvals0 : List String) : LoopState :=
  { messages := [.system systemPrompt, .user (parse_user_input userMessage)],
    events := [], approvals := approvals0, execCalls := [],
    ck := 0, ak := 0, fk := 0, rounds := 0 }

/-- llm.rs stream_chat from loop entry (after credential acquisition,
which is out-of-scope plumbing): runs the bounded for loop. -/
def stream_chat (O : Oracles) (cfg : TurnCfg) (systemPrompt userMessage : String)
    (approvals0 : List String) : LoopState × Except String Unit :=
  runLoop O cfg MAX_TOOL_STEPS (initState systemPrompt userMessage approvals0)

/-! ## Live-stream registry (main.rs, chat_stream / cancel_chat) -/

/-- main.rs SessionHandle: the cancellation sender of one in-flight
turn, tagged here with the session the turn belongs to. -/
structure SessionHandle where
  sessionId : String
deriving Repr, DecidableEq

/-- Registration done by chat_stream: insert the handle under a fresh
stream id (AtomicU64 fetch_add, so keys are distinct). -/
def register_stream (sessions : List (Nat × SessionHandle)) (streamId : Nat)
    (h : SessionHandle) : List (Nat × SessionHandle) :=
  sessions ++ [(streamId, h)]

/-- main.rs cancel_chat: drain the whole live-stream map and fire
the cancellation sender of every handle.  Returns the map after the drain
and the handles signalled, in drain order. -/
def cancel_chat (sessions : List (Nat × SessionHandle)) :
    List (Nat × SessionHandle) × List SessionHandle :=
  (([] : List (Nat × SessionHandle)), sessions.map Prod.snd)

/-! ## Derived observations and concrete inputs used by the theorems -/

/-- Collapse either side of the terminal/continue sum. -/
def sumState : LoopState ⊕ LoopState → LoopState
  | .inl s => s
  | .inr s => s

def isCancelledEvent : Event → Bool
  | .cancelled _ => true
  | _ => false

/-- Number of `cancelled` events in a list. -/
def countCancelled (evts : List Event) : Nat :=
  (evts.filter isCancelledEvent).length

/-- The tool_call_ids of the tool_status events with the given state,
in emission order. -/
def statusIds (state : String) (evts : List Event) : List String :=
  evts.filterMap (fun e =>
    match e with
    | .toolStatus _ id s _ _ _ _ => if s = state then some id else none
    | _ => none)

def startIds (evts : List Event) : List String := statusIds "start" evts

def endIds (evts : List Event) : List String := statusIds "end" evts

/-- The tool_call_ids of the tool_result events, in emission order. -/
def toolResultIds (evts : List Event) : List String :=
  evts.filterMap (fun e =>
    match e with
    | .toolResult _ id _ _ _ _ => some id
    | _ => none)

/-- The tool_call_ids of the role-tool conversation entries, in order. -/
def toolEntryIds (msgs : List Msg) : List String :=
  msgs.filterMap (fun m =>
    match m with
    | .tool id _ => some id
    | _ => none)

/-- The effective (possibly synthesized) ids of the tool calls of a round,
in call order, starting from fresh-uuid cursor fk. -/
def effIds (O : Oracles) : Nat → List Json → List String
  | _, [] => []
  | fk, tc :: rest =>
      if rawCallId tc = "" then O.fresh fk :: effIds O (fk + 1) rest
      else rawCallId tc :: effIds O fk rest

/-- message.get("content").and_then(as_str).unwrap_or(""). -/
def contentOf (msg : Json) : String :=
  ((msg.get "content").bind Json.asStr).getD ""

/-- message.get("reasoning_content").and_then(as_str).unwrap_or(""). -/
def reasoningOf (msg : Json) : String :=
  ((msg.get "reasoning_content").bind Json.asStr).getD ""

/-- The state after a successful model round, before the response is
interpreted: both cancellation checkpoints consumed, the round counted,
and the thinking event emitted when reasoning text is present. -/
def afterModelState (cfg : TurnCfg) (st : LoopState) (msg : Json) : LoopState :=
  let st3 : LoopState := { st with ck := st.ck + 1 + 1, rounds := st.rounds + 1 }
  if reasoningOf msg = "" then st3 else pushEvent st3 (.thinking cfg.sessionId (reasoningOf msg))

/-- The record types load_messages matches on; every other record
falls into the silent default arm. -/
def recognizedType : Option String → Bool
  | some "TurnBegin" => true
  | some "ContentPart" => true
  | some "ToolCall" => true
  | some "StepEnd" => true
  | some "TurnEnd" => true
  | _ => false

/-- A chat/completions response body with the given message fields. -/
def mkData (msgFields : List (String × Json)) : Json :=
  Json.obj [("choices", Json.arr [Json.obj [("message", Json.obj msgFields)]])]

/-- A wire tool call with the given id, function name and raw
arguments string. -/
def mkToolCallJson (id name arguments : String) : Json :=
  Json.obj [("id", Json.str id),
            ("function", Json.obj [("name", Json.str name), ("arguments", Json.str arguments)])]

/-- Oracles with inert defaults, overridden pointwise below. -/
def baseOracles : Oracles where
  model := fun _ => .error "unused"
  cancel := fun _ => false
  approval := fun _ => .decided true
  fresh := fun k => "uuid-" ++ toString k
  collab := fun _ => ⟨true, "done", ""⟩
  parse := fun _ => none
  parseEditList := fun _ => none
  parseEdit := fun _ => none

/-- A turn configuration without auto-approve. -/
def cfg0 : TurnCfg := ⟨"s1", false, "/w", none⟩

/-- A model that always answers with empty content and no tool calls. -/
def spinOracles : Oracles :=
  { baseOracles with model := fun _ => .ok (mkData [("content", Json.str "")]) }

/-- Round 0: one gated Shell call; round 1: a plain final answer.  The
approval decision is always a rejection. -/
def rejOracles : Oracles :=
  { baseOracles with
    model := fun i =>
      if i = 0 then
        .ok (mkData [("content", Json.str ""),
                     ("tool_calls", Json.arr [mkToolCallJson "c1" "Shell" "x"])])
      else .ok (mkData [("content", Json.str "bye")]),
    approval := fun _ => .decided false }

/-- A model that returns the same single tool call on every round. -/
def alwaysToolOracles : Oracles :=
  { baseOracles with
    model := fun _ =>
      .ok (mkData [("content", Json.str ""),
                   ("tool_calls", Json.arr [mkToolCallJson "c1" "ReadFile" "x"])]) }

/-- Oracles whose cancellation token is observed already fired at the
first checkpoint. -/
def cancelledOracles : Oracles :=
  { baseOracles with cancel := fun _ => true }

/-- The response message of alwaysToolOracles, as extracted. -/
def alwaysToolMsg : Json :=
  Json.obj [("content", Json.str ""),
            ("tool_calls", Json.arr [mkToolCallJson "c1" "ReadFile" "x"])]

/-- A gated wire tool call used to exercise the approval gate. -/
def gatedCall : Json := mkToolCallJson "c9" "Shell" "x"

/-- Oracles whose first approval wait is lost to cancellation. -/
def approvalCancelOracles : Oracles :=
  { baseOracles with approval := fun _ => .cancelledDuring }

/-- Oracles whose approval decisions all resolve to rejection. -/
def rejectAllOracles : Oracles :=
  { baseOracles with approval := fun _ => .decided false }

/-- An arbitrary reconstruction state used by witnesses. -/
def rstate0 : RState := ⟨[⟨"user", "q"⟩], some "assistant", "partial"⟩

/-- usage.prompt_tokens.as_u64.unwrap_or(0) of the done event. -/
def usagePT (data : Json) : Nat :=
  ((((data.get "usage").getD (Json.obj [])).get "prompt_tokens").bind Json.asU64).getD 0

/-- usage.completion_tokens.as_u64.unwrap_or(0) of the done event. -/
def usageCT (data : Json) : Nat :=
  ((((data.get "usage").getD (Json.obj [])).get "completion_tokens").bind Json.asU64).getD 0

/-- usage.total_tokens, defaulted to the sum of the other two. -/
def usageTT (data : Json) : Nat :=
  ((((data.get "usage").getD (Json.obj [])).get "total_tokens").bind Json.asU64).getD
    (usagePT data + usageCT data)

/-- The assistant conversation entry a tool round appends. -/
def assistantEntry (msg : Json) : Msg :=
  .assistant (contentOf msg) (toolCallsOf msg) (msg.get "reasoning_content")

/-- The state a tool round hands to the per-call for loop: the
assistant entry appended after the model-round bookkeeping. -/
def toolRoundStart (cfg : TurnCfg) (st : LoopState) (msg : Json) : LoopState :=
  { afterModelState cfg st msg with
    messages := (afterModelState cfg st msg).messages ++ [assistantEntry msg] }


/-! ## Theorems -/

/-- Helper: a record whose type is none of the five recognized tags
leaves the reconstruction state unchanged. -/
theorem rstep_unrecognized (j : Json) (h : recognizedType (msgType j) = false)
    (st : RState) : rstep st j = st := by
  unfold rstep
  split
  · next heq => rw [heq] at h; simp [recognizedType] at h
  · next heq => rw [heq] at h; simp [recognizedType] at h
  · rfl
  · next heq => rw [heq] at h; simp [recognizedType] at h
  · next heq => rw [heq] at h; simp [recognizedType] at h
  · rfl

/-- Helper: folding a list of skippable lines leaves the state fixed. -/
theorem foldl_skippable (junk : List (Option Json))
    (hj : ∀ x ∈ junk, x = none ∨ ∃ j, x = some j ∧ recognizedType (msgType j) = false) :
    ∀ st : RState,
      junk.foldl (fun st line => match line with | none => st | some j => rstep st j) st = st := by
  induction junk with
  | nil => intro st; rfl
  | cons x rest ih =>
      intro st
      have hx := hj x (List.mem_cons_self x rest)
      have hrest : ∀ y ∈ rest, y = none ∨ ∃ j, y = some j ∧ recognizedType (msgType j) = false :=
        fun y hy => hj y (List.mem_cons_of_mem x hy)
      rcases hx with rfl | ⟨j, rfl, hjj⟩
      · exact ih hrest st
      · show rest.foldl _ (rstep st j) = st
        rw [rstep_unrecognized j hjj st]
        exact ih hrest st

/-- C9: The transcript reconstructor is total over arbitrary
line-delimited input: malformed lines (`none`: unparsable or blank)
and records with unrecognized types are skipped silently, contributing
no messages — trailing junk of either kind leaves the reconstruction
unchanged, and such lines are inert anywhere in the input. -/
theorem load_messages_total_junk :
    (∀ (input junk : List (Option Json)),
      (∀ x ∈ junk, x = none ∨ ∃ j, x = some j ∧ recognizedType (msgType j) = false) →
      load_messages (input ++ junk) = load_messages input) ∧
    (∀ (pre post : List (Option Json)),
      load_messages (pre ++ none :: post) = load_messages (pre ++ post)) ∧
    (∀ (pre post : List (Option Json)) (j : Json),
      recognizedType (msgType j) = false →
      load_messages (pre ++ some j :: post) = load_messages (pre ++ post)) := by
  refine ⟨?_, ?_, ?_⟩
  · intro input junk hj
    unfold load_messages
    rw [List.foldl_append, foldl_skippable junk hj]
  · intro pre post
    unfold load_messages
    rw [List.foldl_append, List.foldl_append]
    rfl
  · intro pre post j hj
    unfold load_messages
    rw [List.foldl_append, List.foldl_append, List.foldl_cons]
    dsimp only
    rw [rstep_unrecognized j hj]

/-- C9 witness: trailing malformed and unrecognized lines after the
example log of the spec change nothing. -/
theorem load_messages_total_junk_witness :
    load_messages (exampleWire ++ [none, some (mkTagged "Bogus")]) = load_messages exampleWire :=
  load_messages_total_junk.1 exampleWire [none, some (mkTagged "Bogus")]
    (by
      intro x hx
      simp only [List.mem_cons, List.not_mem_nil, or_false] at hx
      rcases hx with rfl | rfl
      · exact Or.inl rfl
      · exact Or.inr ⟨mkTagged "Bogus", rfl, by decide⟩)

/-- C8 counterexample: for a TurnBegin whose FIRST text item is the
empty string while a LATER item holds "hi", the code emits no user
message at all — it does not extract the first NON-EMPTY text item,
contradicting the claimed state-machine description. -/
theorem load_messages_first_text_cx :
    load_messages emptyFirstWire = [] ∧
    load_messages emptyFirstWire ≠ [⟨"user", "hi"⟩] := by
  decide

/-- C8 (amended): TurnBegin flushes any buffered content as a message,
emits the text of the FIRST item bearing a string text field provided
that text is non-empty (later items are never consulted), and resets
the buffer to assistant mode; a text ContentPart in assistant mode
appends to the buffer; StepEnd/TurnEnd flush a non-empty assistant
buffer; and the concrete example of the spec reconstructs exactly
as claimed. -/
theorem load_messages_state_machine :
    (∀ (st : RState) (j : Json), msgType j = some "TurnBegin" →
      rstep st j =
        ⟨(match st.role with
          | some r => if st.buf ≠ "" then st.messages ++ [⟨r, st.buf⟩] else st.messages
          | none => st.messages) ++
          (if firstUserText j ≠ "" then [⟨"user", firstUserText j⟩] else []),
         some "assistant", ""⟩) ∧
    (∀ (st : RState) (j : Json) (t : String), st.role = some "assistant" →
      msgType j = some "ContentPart" →
      ((payloadOf j).bind (fun p => p.get "type")).bind Json.asStr = some "text" →
      ((payloadOf j).bind (fun p => p.get "text")).bind Json.asStr = some t →
      rstep st j = { st with buf := st.buf ++ t }) ∧
    (∀ (st : RState) (j : Json),
      (msgType j = some "StepEnd" ∨ msgType j = some "TurnEnd") →
      st.role = some "assistant" → st.buf ≠ "" →
      rstep st j = { st with messages := st.messages ++ [⟨"assistant", st.buf⟩], buf := "" }) ∧
    load_messages exampleWire = [⟨"user", "hi"⟩, ⟨"assistant", "hello world"⟩] := by
  refine ⟨?_, ?_, ?_, by decide⟩
  · intro st j h
    unfold rstep
    rw [h]
    rcases st with ⟨ms, role, buf⟩
    cases role <;> dsimp only <;> split <;> split <;> simp_all
  · intro st j t hrole hty hptype htext
    unfold rstep
    rw [hty]
    rw [if_pos hrole, hptype, htext]
    rfl
  · intro st j hty hrole hbuf
    rcases hty with h | h <;>
      · unfold rstep
        rw [h]
        unfold flushAssistant
        rw [hrole]
        simp [hbuf]

/-- C8 witness: the TurnBegin arm of the amended state machine applied
to a concrete buffered state and record. -/
theorem load_messages_state_machine_witness :
    rstep rstate0 (mkTurnBegin [Json.obj [("text", Json.str "x")]]) =
      ⟨[⟨"user", "q"⟩, ⟨"assistant", "partial"⟩, ⟨"user", "x"⟩], some "assistant", ""⟩ := by
  have h := load_messages_state_machine.1 rstate0
    (mkTurnBegin [Json.obj [("text", Json.str "x")]]) (by decide)
  rw [h]
  decide

/-- C10: cancel_chat is global, not per-session — it drains the whole
live-stream map and fires every registered cancellation sender, so a
handle registered by chat_stream for ANY session (no session filter
exists in its signature) is signalled by a single cancel request. -/
theorem cancel_chat_is_global :
    (∀ sessions : List (Nat × SessionHandle),
      (cancel_chat sessions).1 = [] ∧
      (cancel_chat sessions).2 = sessions.map Prod.snd) ∧
    (∀ (sessions : List (Nat × SessionHandle)) (streamId : Nat) (h : SessionHandle),
      (cancel_chat (register_stream sessions streamId h)).2 =
        sessions.map Prod.snd ++ [h]) := by
  constructor
  · intro sessions
    exact ⟨rfl, rfl⟩
  · intro sessions streamId h
    simp [cancel_chat, register_stream]

/-- C7: tool dispatch is total — an unparsable arguments string is
replaced by the empty object; an unknown tool name and every missing
required argument (path, command, content, an absent edit list, query,
url) produce an ok=false ToolOutput with a human-readable summary
rather than an error.  (execute_tool is a total Lean function, so a
ToolOutput is returned on every input by construction.) -/
theorem execute_tool_never_raises :
    (∀ (O : Oracles) (tc : Json), O.parse (rawArguments tc) = none →
      parsedArgs O tc = Json.obj []) ∧
    (∀ (O : Oracles) (id name : String) (args : Json) (wd : String) (cp : Option String),
      name ∉ (["ReadFile", "Shell", "WriteFile", "StrReplaceFile", "SearchWeb", "FetchURL"] : List String) →
      execute_tool O id name args wd cp = ⟨false, "Unknown tool: " ++ name, ""⟩) ∧
    (∀ (O : Oracles) (id : String) (args : Json) (wd : String) (cp : Option String),
      (args.get "path").bind Json.asStr = none →
      execute_tool O id "ReadFile" args wd cp = ⟨false, "Missing path", ""⟩) ∧
    (∀ (O : Oracles) (id : String) (args : Json) (wd : String) (cp : Option String),
      (args.get "command").bind Json.asStr = none →
      execute_tool O id "Shell" args wd cp = ⟨false, "Missing command", ""⟩) ∧
    (∀ (O : Oracles) (id : String) (args : Json) (wd : String) (cp : Option String) (p : String),
      (args.get "path").bind Json.asStr = some p →
      (args.get "content").bind Json.asStr = none →
      execute_tool O id "WriteFile" args wd cp = ⟨false, "Missing content", ""⟩) ∧
    (∀ (O : Oracles) (id : String) (args : Json) (wd : String) (cp : Option String) (p : String),
      (args.get "path").bind Json.asStr = some p →
      args.get "edit" = none →
      execute_tool O id "StrReplaceFile" args wd cp = ⟨false, "Missing edits", ""⟩) ∧
    (∀ (O : Oracles) (id : String) (args : Json) (wd : String) (cp : Option String),
      (args.get "query").bind Json.asStr = none →
      execute_tool O id "SearchWeb" args wd cp = ⟨false, "Missing query", ""⟩) ∧
    (∀ (O : Oracles) (id : String) (args : Json) (wd : String) (cp : Option String),
      (args.get "url").bind Json.asStr = none →
      execute_tool O id "FetchURL" args wd cp = ⟨false, "Missing URL", ""⟩) := by
  refine ⟨?_, ?_, ?_, ?_, ?_, ?_, ?_, ?_⟩
  · intro O tc h
    unfold parsedArgs
    rw [h]
    rfl
  · intro O id name args wd cp h
    unfold execute_tool
    split <;> simp_all
  · intro O id args wd cp h
    unfold execute_tool
    rw [h]
    rfl
  · intro O id args wd cp h
    unfold execute_tool
    rw [h]
    rfl
  · intro O id args wd cp p hp h
    unfold execute_tool
    rw [hp, h]
    rfl
  · intro O id args wd cp p hp h
    unfold execute_tool
    rw [hp, h]
    rfl
  · intro O id args wd cp h
    unfold execute_tool
    rw [h]
    rfl
  · intro O id args wd cp h
    unfold execute_tool
    rw [h]
    rfl

/-- C7 witness: the unknown-tool arm at a concrete name. -/
theorem execute_tool_never_raises_witness :
    execute_tool baseOracles "id0" "Nope" (Json.obj []) "/w" none =
      ⟨false, "Unknown tool: Nope", ""⟩ :=
  execute_tool_never_raises.2.1 baseOracles "id0" "Nope" (Json.obj []) "/w" none (by decide)

/-- C2 counterexample: a model that always answers with empty content
and zero tool calls.  The claim says the loop stops the turn on any
zero-tool-call round including empty content; the code instead issues
another model round every time, consuming all 20 budget steps and
failing with the step-budget error. -/
theorem empty_content_spins_cx :
    (stream_chat spinOracles cfg0 "sys" "hi" []).1.rounds = 20 ∧
    (stream_chat spinOracles cfg0 "sys" "hi" []).2 = .error "Exceeded maximum tool steps" :=
  ⟨rfl, rfl⟩

/-- C3 counterexample: a round with N = 1 tool calls and no
cancellation, whose single gated call is rejected: the code emits
zero tool_status(start) events (only the end status), so "exactly N
start events" fails. -/
theorem rejected_round_missing_start_cx :
    (startIds (stream_chat rejOracles cfg0 "sys" "hi" []).1.events).length = 0 ∧
    endIds (stream_chat rejOracles cfg0 "sys" "hi" []).1.events = ["c1"] ∧
    toolResultIds (stream_chat rejOracles cfg0 "sys" "hi" []).1.events = ["c1"] ∧
    (stream_chat rejOracles cfg0 "sys" "hi" []).2 = .ok () :=
  ⟨rfl, rfl, rfl, rfl⟩

theorem finishCall_eq_approved (O : Oracles) (cfg : TurnCfg) (st : LoopState)
    (callId name : String) (args : Json) :
    finishCall O cfg st callId name args true =
      { st with
        events := st.events ++
          [.toolStatus cfg.sessionId callId "start" name (tool_label name args) none none,
           .toolStatus cfg.sessionId callId "end" name (tool_label name args)
             (some (execute_tool O callId name args cfg.workDir cfg.configPath).ok)
             (some (execute_tool O callId name args cfg.workDir cfg.configPath).summary),
           .toolResult cfg.sessionId callId name
             (execute_tool O callId name args cfg.workDir cfg.configPath).ok
             (execute_tool O callId name args cfg.workDir cfg.configPath).summary
             (execute_tool O callId name args cfg.workDir cfg.configPath).output],
        execCalls := st.execCalls ++ [(name, args)],
        messages := st.messages ++
          [.tool callId (execute_tool O callId name args cfg.workDir cfg.configPath)] } := by
  simp [finishCall, pushEvent]

theorem finishCall_eq_rejected (O : Oracles) (cfg : TurnCfg) (st : LoopState)
    (callId name : String) (args : Json) :
    finishCall O cfg st callId name args false =
      { st with
        events := st.events ++
          [.toolStatus cfg.sessionId callId "end" name (tool_label name args)
             (some false) (some "User rejected tool request."),
           .toolResult cfg.sessionId callId name false "User rejected tool request." ""],
        messages := st.messages ++
          [.tool callId ⟨false, "User rejected tool request.", ""⟩] } := by
  simp [finishCall, pushEvent]

theorem runCall_cancel (O : Oracles) (cfg : TurnCfg) (st : LoopState) (tc : Json)
    (h : O.cancel st.ck = true) :
    runCall O cfg st tc = .inl (cancelStop cfg st) := by
  simp [runCall, h]

theorem runCall_ungated (O : Oracles) (cfg : TurnCfg) (st : LoopState) (tc : Json)
    (hc : O.cancel st.ck = false)
    (hg : (needs_approval (callName tc) && !cfg.autoApprove) = false) :
    runCall O cfg st tc = .inr (finishCall O cfg
      { st with
        ck := st.ck + 1
        fk := st.fk + (if rawCallId tc = "" then 1 else 0) }
      (effCallId O st.fk tc) (callName tc) (parsedArgs O tc) true) := by
  unfold runCall
  rw [hc]
  simp only [Bool.false_eq_true, if_false, hg]
  split <;> simp_all [effCallId]

theorem insert_filter_key (ap : List String) (rid : String) :
    (if rid ∈ ap then ap else ap ++ [rid]).filter (fun k => k ≠ rid) =
      ap.filter (fun k => k ≠ rid) := by
  split
  · rfl
  · rw [List.filter_append]
    simp

theorem request_approval_decided (O : Oracles) (ak : Nat) (sid callId name : String)
    (args : Json) (approvals : List String) (b : Bool)
    (ha : O.approval ak = .decided b) :
    request_approval O ak sid callId name args approvals =
      (approvals.filter (fun k => k ≠ sid ++ ":" ++ callId),
       [Event.toolApproval sid (sid ++ ":" ++ callId) name args], .ok b) := by
  unfold request_approval
  rw [ha]
  dsimp only
  rw [insert_filter_key]

theorem request_approval_cancelled (O : Oracles) (ak : Nat) (sid callId name : String)
    (args : Json) (approvals : List String)
    (ha : O.approval ak = .cancelledDuring) :
    request_approval O ak sid callId name args approvals =
      (approvals.filter (fun k => k ≠ sid ++ ":" ++ callId),
       [Event.toolApproval sid (sid ++ ":" ++ callId) name args], .error "Cancelled") := by
  unfold request_approval
  rw [ha]
  dsimp only
  rw [insert_filter_key]

theorem runCall_gated_decided (O : Oracles) (cfg : TurnCfg) (st : LoopState) (tc : Json)
    (b : Bool) (hc : O.cancel st.ck = false)
    (hg : (needs_approval (callName tc) && !cfg.autoApprove) = true)
    (ha : O.approval st.ak = .decided b) :
    runCall O cfg st tc = .inr (finishCall O cfg
      { st with
        ck := st.ck + 1
        fk := st.fk + (if rawCallId tc = "" then 1 else 0)
        ak := st.ak + 1
        approvals := st.approvals.filter
          (fun k => k ≠ cfg.sessionId ++ ":" ++ effCallId O st.fk tc)
        events := st.events ++
          [.toolApproval cfg.sessionId (cfg.sessionId ++ ":" ++ effCallId O st.fk tc)
             (callName tc) (parsedArgs O tc)] }
      (effCallId O st.fk tc) (callName tc) (parsedArgs O tc) b) := by
  by_cases hr : rawCallId tc = "" <;>
    simp only [runCall, hc, Bool.false_eq_true, if_false, hg, if_true, hr, effCallId,
      request_approval_decided O st.ak cfg.sessionId _ _ _ _ b ha] <;>
    simp [hr]

theorem runCall_gated_cancelled (O : Oracles) (cfg : TurnCfg) (st : LoopState) (tc : Json)
    (hc : O.cancel st.ck = false)
    (hg : (needs_approval (callName tc) && !cfg.autoApprove) = true)
    (ha : O.approval st.ak = .cancelledDuring) :
    runCall O cfg st tc = .inl (cancelStop cfg
      { st with
        ck := st.ck + 1
        fk := st.fk + (if rawCallId tc = "" then 1 else 0)
        ak := st.ak + 1
        approvals := st.approvals.filter
          (fun k => k ≠ cfg.sessionId ++ ":" ++ effCallId O st.fk tc)
        events := st.events ++
          [.toolApproval cfg.sessionId (cfg.sessionId ++ ":" ++ effCallId O st.fk tc)
             (callName tc) (parsedArgs O tc)] }) := by
  by_cases hr : rawCallId tc = "" <;>
    simp only [runCall, hc, Bool.false_eq_true, if_false, hg, if_true, hr, effCallId,
      request_approval_cancelled O st.ak cfg.sessionId _ _ _ _ ha] <;>
    simp [hr]

theorem countCancelled_append (a b : List Event) :
    countCancelled (a ++ b) = countCancelled a + countCancelled b := by
  simp [countCancelled, List.filter_append]

theorem runCall_shape (O : Oracles) (cfg : TurnCfg) (st : LoopState) (tc : Json) :
    (∀ s, runCall O cfg st tc = .inl s →
      s.rounds = st.rounds ∧
      ∃ pre, s.events = pre ++ [Event.cancelled cfg.sessionId] ∧
        countCancelled pre = countCancelled st.events) ∧
    (∀ s, runCall O cfg st tc = .inr s →
      s.rounds = st.rounds ∧ countCancelled s.events = countCancelled st.events) := by
  by_cases hc : O.cancel st.ck = true
  · rw [runCall_cancel O cfg st tc hc]
    constructor
    · intro s hs
      injection hs with h
      subst h
      refine ⟨rfl, st.events, rfl, rfl⟩
    · intro s hs
      exact absurd hs (by simp)
  · have hc' : O.cancel st.ck = false := by simpa using hc
    by_cases hg : (needs_approval (callName tc) && !cfg.autoApprove) = true
    · cases hap : O.approval st.ak with
      | decided b =>
          rw [runCall_gated_decided O cfg st tc b hc' hg hap]
          constructor
          · intro s hs
            exact absurd hs (by simp)
          · intro s hs
            injection hs with h
            subst h
            cases b
            · rw [finishCall_eq_rejected]
              refine ⟨rfl, ?_⟩
              simp [countCancelled_append, countCancelled, isCancelledEvent]
            · rw [finishCall_eq_approved]
              refine ⟨rfl, ?_⟩
              simp [countCancelled_append, countCancelled, isCancelledEvent]
      | cancelledDuring =>
          rw [runCall_gated_cancelled O cfg st tc hc' hg hap]
          constructor
          · intro s hs
            injection hs with h
            subst h
            refine ⟨rfl, st.events ++
              [Event.toolApproval cfg.sessionId
                 (cfg.sessionId ++ ":" ++ effCallId O st.fk tc) (callName tc) (parsedArgs O tc)],
              by simp [cancelStop, pushEvent], ?_⟩
            simp [countCancelled_append, countCancelled, isCancelledEvent]
          · intro s hs
            exact absurd hs (by simp)
    · have hg' : (needs_approval (callName tc) && !cfg.autoApprove) = false := by simpa using hg
      rw [runCall_ungated O cfg st tc hc' hg']
      constructor
      · intro s hs
        exact absurd hs (by simp)
      · intro s hs
        injection hs with h
        subst h
        rw [finishCall_eq_approved]
        refine ⟨rfl, ?_⟩
        simp [countCancelled_append, countCancelled, isCancelledEvent]

theorem runCalls_shape (O : Oracles) (cfg : TurnCfg) (calls : List Json) :
    ∀ st : LoopState,
    (∀ s, runCalls O cfg st calls = .inl s →
      s.rounds = st.rounds ∧
      ∃ pre, s.events = pre ++ [Event.cancelled cfg.sessionId] ∧
        countCancelled pre = countCancelled st.events) ∧
    (∀ s, runCalls O cfg st calls = .inr s →
      s.rounds = st.rounds ∧ countCancelled s.events = countCancelled st.events) := by
  induction calls with
  | nil =>
      intro st
      constructor
      · intro s hs
        exact absurd hs (by simp [runCalls])
      · intro s hs
        injection hs with h
        subst h
        exact ⟨rfl, rfl⟩
  | cons tc rest ih =>
      intro st
      constructor
      · intro s hs
        unfold runCalls at hs
        rcases h1 : runCall O cfg st tc with s1 | s1 <;> rw [h1] at hs
        · injection hs with h
          subst h
          exact (runCall_shape O cfg st tc).1 _ h1
        · obtain ⟨hr, hcnt⟩ := (runCall_shape O cfg st tc).2 s1 h1
          obtain ⟨hr2, pre, hpre, hcnt2⟩ := (ih s1).1 s hs
          exact ⟨hr2.trans hr, pre, hpre, hcnt2.trans hcnt⟩
      · intro s hs
        unfold runCalls at hs
        rcases h1 : runCall O cfg st tc with s1 | s1 <;> rw [h1] at hs
        · cases hs
        · obtain ⟨hr, hcnt⟩ := (runCall_shape O cfg st tc).2 s1 h1
          obtain ⟨hr2, hcnt2⟩ := (ih s1).2 s hs
          exact ⟨hr2.trans hr, hcnt2.trans hcnt⟩



theorem runLoop_rounds_le (O : Oracles) (cfg : TurnCfg) :
    ∀ (fuel : Nat) (st : LoopState),
      (runLoop O cfg fuel st).1.rounds ≤ st.rounds + fuel := by
  intro fuel
  induction fuel with
  | zero => intro st; simp [runLoop]
  | succ fuel ih =>
      intro st
      rw [runLoop]
      dsimp only
      split
      · simp [cancelStop, pushEvent]
      · split
        · simp [cancelStop, pushEvent]
        · split
          · simp
          · split
            · simp
            · split
              · split
                · refine le_trans (ih _) ?_
                  split <;> simp [pushEvent] <;> omega
                · split <;> simp [pushEvent] <;> omega
              · split
                · rename_i stT heq
                  obtain ⟨hr, -⟩ := (runCalls_shape O cfg _ _).1 stT heq
                  dsimp only
                  rw [hr]
                  dsimp only
                  split <;> simp [pushEvent] <;> omega
                · rename_i st6 heq
                  obtain ⟨hr, -⟩ := (runCalls_shape O cfg _ _).2 st6 heq
                  refine le_trans (ih st6) ?_
                  rw [hr]
                  dsimp only
                  split <;> simp [pushEvent] <;> omega

theorem runLoop_cancelled_shape (O : Oracles) (cfg : TurnCfg) :
    ∀ (fuel : Nat) (st : LoopState), countCancelled st.events = 0 →
      countCancelled (runLoop O cfg fuel st).1.events = 0 ∨
      ((runLoop O cfg fuel st).2 = .ok () ∧
       ∃ pre, (runLoop O cfg fuel st).1.events = pre ++ [Event.cancelled cfg.sessionId] ∧
         countCancelled pre = 0) := by
  intro fuel
  induction fuel with
  | zero => intro st h; exact Or.inl h
  | succ fuel ih =>
      intro st h
      rw [runLoop]
      dsimp only
      split
      · exact Or.inr ⟨rfl, st.events, rfl, h⟩
      · split
        · exact Or.inr ⟨rfl, st.events, rfl, h⟩
        · split
          · exact Or.inl h
          · split
            · exact Or.inl h
            · split
              · split
                · refine ih _ ?_
                  split
                  · exact h
                  · simpa [pushEvent, countCancelled_append, countCancelled, isCancelledEvent] using h
                · refine Or.inl ?_
                  dsimp only
                  rw [show ∀ a e1 e2, (pushEvent (pushEvent a e1) e2).events = a.events ++ [e1, e2] by
                    intro a e1 e2; simp [pushEvent]]
                  rw [countCancelled_append]
                  split
                  · simpa [countCancelled, isCancelledEvent] using h
                  · simpa [pushEvent, countCancelled_append, countCancelled, isCancelledEvent] using h
              · split
                · rename_i stT heq
                  obtain ⟨-, pre, hpre, hcnt⟩ := (runCalls_shape O cfg _ _).1 stT heq
                  refine Or.inr ⟨rfl, pre, hpre, ?_⟩
                  rw [hcnt]
                  dsimp only
                  split
                  · exact h
                  · simpa [pushEvent, countCancelled_append, countCancelled, isCancelledEvent] using h
                · rename_i st6 heq
                  obtain ⟨-, hcnt⟩ := (runCalls_shape O cfg _ _).2 st6 heq
                  refine ih st6 ?_
                  rw [hcnt]
                  dsimp only
                  split
                  · exact h
                  · simpa [pushEvent, countCancelled_append, countCancelled, isCancelledEvent] using h

theorem runLoop_succ_ok (O : Oracles) (cfg : TurnCfg) (fuel : Nat) (st : LoopState)
    (data msg : Json)
    (hc1 : O.cancel st.ck = false) (hc2 : O.cancel (st.ck + 1) = false)
    (hm : O.model st.rounds = .ok data) (hx : extractMessage data = some msg) :
    runLoop O cfg (fuel + 1) st =
      (if (toolCallsOf msg).isEmpty then
        (if contentOf msg = "" then runLoop O cfg fuel (afterModelState cfg st msg)
         else (pushEvent (pushEvent (afterModelState cfg st msg)
                 (.chunk cfg.sessionId (contentOf msg)))
               (.done cfg.sessionId (usagePT data) (usageCT data) (usageTT data)), .ok ()))
       else
        match runCalls O cfg (toolRoundStart cfg st msg) (toolCallsOf msg) with
        | .inl stT => (stT, .ok ())
        | .inr st6 => runLoop O cfg fuel st6) := by
  rw [runLoop]
  dsimp only
  rw [hc1, hc2]
  simp only [Bool.false_eq_true, if_false]
  rw [hm]
  dsimp only
  rw [hx]
  rfl


theorem effIds_cons (O : Oracles) (fk : Nat) (tc : Json) (rest : List Json) :
    effIds O fk (tc :: rest) =
      effCallId O fk tc :: effIds O (fk + (if rawCallId tc = "" then 1 else 0)) rest := by
  rw [effIds]
  split <;> rename_i h <;> simp [effCallId, h]

theorem runCalls_approved_spec (O : Oracles) (cfg : TurnCfg)
    (hc : ∀ k, O.cancel k = false) (ha : ∀ k, O.approval k = .decided true) :
    ∀ (calls : List Json) (st : LoopState),
    ∃ st', runCalls O cfg st calls = .inr st' ∧
      ∃ newMsgs newEvts,
        st'.messages = st.messages ++ newMsgs ∧
        st'.events = st.events ++ newEvts ∧
        newMsgs.length = calls.length ∧
        (∀ m ∈ newMsgs, ∃ id out, m = Msg.tool id out) ∧
        toolEntryIds newMsgs = effIds O st.fk calls ∧
        startIds newEvts = effIds O st.fk calls ∧
        endIds newEvts = effIds O st.fk calls ∧
        toolResultIds newEvts = effIds O st.fk calls := by
  intro calls
  induction calls with
  | nil =>
      intro st
      exact ⟨st, rfl, [], [], by simp, by simp, rfl, by simp,
        rfl, rfl, rfl, rfl⟩
  | cons tc rest ih =>
      intro st
      have hbody : ∀ stG : LoopState,
          stG.messages = st.messages ∧
          stG.events = st.events ++ (if (needs_approval (callName tc) && !cfg.autoApprove) = true
            then [Event.toolApproval cfg.sessionId
              (cfg.sessionId ++ ":" ++ effCallId O st.fk tc) (callName tc) (parsedArgs O tc)]
            else []) ∧
          stG.fk = st.fk + (if rawCallId tc = "" then 1 else 0) →
          runCall O cfg st tc = .inr (finishCall O cfg stG
            (effCallId O st.fk tc) (callName tc) (parsedArgs O tc) true) →
          ∃ st', runCalls O cfg st (tc :: rest) = .inr st' ∧
            ∃ newMsgs newEvts,
              st'.messages = st.messages ++ newMsgs ∧
              st'.events = st.events ++ newEvts ∧
              newMsgs.length = (tc :: rest).length ∧
              (∀ m ∈ newMsgs, ∃ id out, m = Msg.tool id out) ∧
              toolEntryIds newMsgs = effIds O st.fk (tc :: rest) ∧
              startIds newEvts = effIds O st.fk (tc :: rest) ∧
              endIds newEvts = effIds O st.fk (tc :: rest) ∧
              toolResultIds newEvts = effIds O st.fk (tc :: rest) := by
        intro stG ⟨hGm, hGe, hGf⟩ hcall
        rw [finishCall_eq_approved] at hcall
        obtain ⟨st', hrun', newMsgs, newEvts, hmsgs, hevts, hlen, hshape,
          htools, hstarts, hends, hress⟩ := ih (finishCall O cfg stG
            (effCallId O st.fk tc) (callName tc) (parsedArgs O tc) true)
        rw [finishCall_eq_approved] at hrun' hmsgs hevts htools hstarts hends hress
        dsimp only at hmsgs hevts htools hstarts hends hress
        rw [hGm] at hmsgs
        rw [hGe] at hevts
        rw [hGf] at htools hstarts hends hress
        refine ⟨st', ?_, Msg.tool (effCallId O st.fk tc)
            (execute_tool O (effCallId O st.fk tc) (callName tc) (parsedArgs O tc)
              cfg.workDir cfg.configPath) :: newMsgs,
          (if (needs_approval (callName tc) && !cfg.autoApprove) = true
            then [Event.toolApproval cfg.sessionId
              (cfg.sessionId ++ ":" ++ effCallId O st.fk tc) (callName tc) (parsedArgs O tc)]
            else []) ++
            Event.toolStatus cfg.sessionId (effCallId O st.fk tc) "start" (callName tc)
              (tool_label (callName tc) (parsedArgs O tc)) none none ::
            Event.toolStatus cfg.sessionId (effCallId O st.fk tc) "end" (callName tc)
              (tool_label (callName tc) (parsedArgs O tc))
              (some (execute_tool O (effCallId O st.fk tc) (callName tc) (parsedArgs O tc)
                cfg.workDir cfg.configPath).ok)
              (some (execute_tool O (effCallId O st.fk tc) (callName tc) (parsedArgs O tc)
                cfg.workDir cfg.configPath).summary) ::
            Event.toolResult cfg.sessionId (effCallId O st.fk tc) (callName tc)
              (execute_tool O (effCallId O st.fk tc) (callName tc) (parsedArgs O tc)
                cfg.workDir cfg.configPath).ok
              (execute_tool O (effCallId O st.fk tc) (callName tc) (parsedArgs O tc)
                cfg.workDir cfg.configPath).summary
              (execute_tool O (effCallId O st.fk tc) (callName tc) (parsedArgs O tc)
                cfg.workDir cfg.configPath).output ::
            newEvts, ?_, ?_, ?_, ?_, ?_, ?_, ?_, ?_⟩
        · show (match runCall O cfg st tc with
            | .inl stT => Sum.inl stT
            | .inr s => runCalls O cfg s rest) = .inr st'
          rw [hcall]
          exact hrun'
        · rw [hmsgs]
          simp
        · rw [hevts]
          split <;> simp
        · simp [hlen]
        · intro m hm
          rcases List.mem_cons.mp hm with rfl | hm'
          · exact ⟨_, _, rfl⟩
          · exact hshape m hm'
        · rw [effIds_cons]
          simp only [toolEntryIds] at htools ⊢
          simp [List.filterMap_cons, htools]
        · rw [effIds_cons]
          simp only [startIds, statusIds] at hstarts ⊢
          split <;> simp [List.filterMap_cons, hstarts]
        · rw [effIds_cons]
          simp only [endIds, statusIds] at hends ⊢
          split <;> simp [List.filterMap_cons, hends]
        · rw [effIds_cons]
          simp only [toolResultIds] at hress ⊢
          split <;> simp [List.filterMap_cons, hress]
      by_cases hg : (needs_approval (callName tc) && !cfg.autoApprove) = true
      · refine hbody
          { st with
            ck := st.ck + 1
            fk := st.fk + (if rawCallId tc = "" then 1 else 0)
            ak := st.ak + 1
            approvals := st.approvals.filter
              (fun k => k ≠ cfg.sessionId ++ ":" ++ effCallId O st.fk tc)
            events := st.events ++
              [.toolApproval cfg.sessionId (cfg.sessionId ++ ":" ++ effCallId O st.fk tc)
                 (callName tc) (parsedArgs O tc)] }
          ⟨rfl, ?_, rfl⟩
          (runCall_gated_decided O cfg st tc true (hc st.ck) hg (ha st.ak))
        rw [if_pos hg]
      · have hg' : (needs_approval (callName tc) && !cfg.autoApprove) = false := by
          simpa using hg
        refine hbody
          { st with
            ck := st.ck + 1
            fk := st.fk + (if rawCallId tc = "" then 1 else 0) }
          ⟨rfl, ?_, rfl⟩
          (runCall_ungated O cfg st tc (hc st.ck) hg')
        rw [if_neg hg]
        simp

theorem afterModelState_messages (cfg : TurnCfg) (st : LoopState) (msg : Json) :
    (afterModelState cfg st msg).messages = st.messages := by
  unfold afterModelState
  split <;> simp [pushEvent]

theorem afterModelState_fk (cfg : TurnCfg) (st : LoopState) (msg : Json) :
    (afterModelState cfg st msg).fk = st.fk := by
  unfold afterModelState
  split <;> simp [pushEvent]

theorem afterModelState_rounds (cfg : TurnCfg) (st : LoopState) (msg : Json) :
    (afterModelState cfg st msg).rounds = st.rounds + 1 := by
  unfold afterModelState
  split <;> simp [pushEvent]

theorem effIds_length (O : Oracles) : ∀ (calls : List Json) (fk : Nat),
    (effIds O fk calls).length = calls.length := by
  intro calls
  induction calls with
  | nil => intro fk; rfl
  | cons tc rest ih =>
      intro fk
      rw [effIds_cons]
      simp [ih]

theorem runCalls_decided_inr (O : Oracles) (cfg : TurnCfg)
    (hc : ∀ k, O.cancel k = false) (ha : ∀ k, ∃ b, O.approval k = .decided b) :
    ∀ (calls : List Json) (st : LoopState),
      ∃ st', runCalls O cfg st calls = .inr st' := by
  intro calls
  induction calls with
  | nil => intro st; exact ⟨st, rfl⟩
  | cons tc rest ih =>
      intro st
      by_cases hg : (needs_approval (callName tc) && !cfg.autoApprove) = true
      · obtain ⟨b, hb⟩ := ha st.ak
        obtain ⟨st', hrun⟩ := ih (finishCall O cfg
          { st with
            ck := st.ck + 1
            fk := st.fk + (if rawCallId tc = "" then 1 else 0)
            ak := st.ak + 1
            approvals := st.approvals.filter
              (fun k => k ≠ cfg.sessionId ++ ":" ++ effCallId O st.fk tc)
            events := st.events ++
              [.toolApproval cfg.sessionId (cfg.sessionId ++ ":" ++ effCallId O st.fk tc)
                 (callName tc) (parsedArgs O tc)] }
          (effCallId O st.fk tc) (callName tc) (parsedArgs O tc) b)
        refine ⟨st', ?_⟩
        show (match runCall O cfg st tc with
          | .inl stT => Sum.inl stT
          | .inr s => runCalls O cfg s rest) = .inr st'
        rw [runCall_gated_decided O cfg st tc b (hc st.ck) hg hb]
        exact hrun
      · have hg' : (needs_approval (callName tc) && !cfg.autoApprove) = false := by
          simpa using hg
        obtain ⟨st', hrun⟩ := ih (finishCall O cfg
          { st with
            ck := st.ck + 1
            fk := st.fk + (if rawCallId tc = "" then 1 else 0) }
          (effCallId O st.fk tc) (callName tc) (parsedArgs O tc) true)
        refine ⟨st', ?_⟩
        show (match runCall O cfg st tc with
          | .inl stT => Sum.inl stT
          | .inr s => runCalls O cfg s rest) = .inr st'
        rw [runCall_ungated O cfg st tc (hc st.ck) hg']
        exact hrun

theorem runLoop_budget (O : Oracles) (cfg : TurnCfg)
    (hc : ∀ k, O.cancel k = false) (ha : ∀ k, ∃ b, O.approval k = .decided b)
    (hm : ∀ i, ∃ data msg, O.model i = .ok data ∧ extractMessage data = some msg ∧
      toolCallsOf msg ≠ []) :
    ∀ (fuel : Nat) (st : LoopState),
      (runLoop O cfg fuel st).2 = .error "Exceeded maximum tool steps" ∧
      (runLoop O cfg fuel st).1.rounds = st.rounds + fuel := by
  intro fuel
  induction fuel with
  | zero => intro st; exact ⟨rfl, by simp [runLoop]⟩
  | succ fuel ih =>
      intro st
      obtain ⟨data, msg, hmm, hxx, htc⟩ := hm st.rounds
      rw [runLoop_succ_ok O cfg fuel st data msg (hc st.ck) (hc (st.ck + 1)) hmm hxx]
      have hne : (toolCallsOf msg).isEmpty = false := by
        cases hh : toolCallsOf msg with
        | nil => exact absurd hh htc
        | cons a l => rfl
      rw [if_neg (by simp [hne])]
      obtain ⟨st', hrun⟩ := runCalls_decided_inr O cfg hc ha (toolCallsOf msg)
        (toolRoundStart cfg st msg)
      rw [hrun]
      obtain ⟨hr2, -⟩ := (runCalls_shape O cfg _ _).2 st' hrun
      have hr3 : st'.rounds = st.rounds + 1 := by
        rw [hr2]
        show (toolRoundStart cfg st msg).rounds = st.rounds + 1
        unfold toolRoundStart
        dsimp only
        exact afterModelState_rounds cfg st msg
      obtain ⟨he, hrd⟩ := ih st'
      refine ⟨he, ?_⟩
      rw [hrd, hr3]
      omega

theorem runLoop_cancel_top (O : Oracles) (cfg : TurnCfg) (fuel : Nat) (st : LoopState)
    (hf : fuel ≠ 0) (h : O.cancel st.ck = true) :
    runLoop O cfg fuel st = (cancelStop cfg st, .ok ()) := by
  cases fuel with
  | zero => exact absurd rfl hf
  | succ n =>
      rw [runLoop]
      dsimp only
      rw [h]
      simp

/-- C1: the turn makes at most MAX_TOOL_STEPS = 20 model rounds, for
every oracle; and when the model returns tool calls on every round
while no cancellation fires (and approval waits resolve to decisions),
the turn ends with the step-budget error after exactly 20 rounds. -/
theorem stream_chat_step_budget :
    (∀ (O : Oracles) (cfg : TurnCfg) (sp um : String) (ap0 : List String),
      (stream_chat O cfg sp um ap0).1.rounds ≤ MAX_TOOL_STEPS) ∧
    (∀ (O : Oracles) (cfg : TurnCfg) (sp um : String) (ap0 : List String),
      (∀ k, O.cancel k = false) →
      (∀ k, ∃ b, O.approval k = .decided b) →
      (∀ i, ∃ data msg, O.model i = .ok data ∧ extractMessage data = some msg ∧
        toolCallsOf msg ≠ []) →
      (stream_chat O cfg sp um ap0).2 = .error "Exceeded maximum tool steps" ∧
      (stream_chat O cfg sp um ap0).1.rounds = MAX_TOOL_STEPS) := by
  constructor
  · intro O cfg sp um ap0
    have h := runLoop_rounds_le O cfg MAX_TOOL_STEPS (initState sp um ap0)
    simpa [stream_chat, initState] using h
  · intro O cfg sp um ap0 hc ha hm
    have h := runLoop_budget O cfg hc ha hm MAX_TOOL_STEPS (initState sp um ap0)
    refine ⟨h.1, ?_⟩
    have h2 := h.2
    simpa [stream_chat, initState] using h2

/-- C1 witness: a model that emits the same tool call on every round
exhausts the budget with the step-budget error after 20 rounds. -/
theorem stream_chat_step_budget_witness :
    (stream_chat alwaysToolOracles cfg0 "s" "u" []).2 = .error "Exceeded maximum tool steps" ∧
    (stream_chat alwaysToolOracles cfg0 "s" "u" []).1.rounds = MAX_TOOL_STEPS :=
  stream_chat_step_budget.2 alwaysToolOracles cfg0 "s" "u" []
    (fun _ => rfl) (fun _ => ⟨true, rfl⟩)
    (fun _ => ⟨mkData [("content", Json.str ""),
        ("tool_calls", Json.arr [mkToolCallJson "c1" "ReadFile" "x"])],
      alwaysToolMsg, rfl, rfl, List.cons_ne_nil _ _⟩)

/-- C2 (amended): a round whose response carries zero tool calls stops
the turn if and only if its content is non-empty — with non-empty
content the loop emits chunk and done and returns ok; with empty
content it proceeds to issue another model round (until the budget
runs out), rather than stopping. -/
theorem nontool_round_stops_iff_content (O : Oracles) (cfg : TurnCfg) (fuel : Nat)
    (st : LoopState) (data msg : Json)
    (hc1 : O.cancel st.ck = false) (hc2 : O.cancel (st.ck + 1) = false)
    (hm : O.model st.rounds = .ok data) (hx : extractMessage data = some msg)
    (htc : toolCallsOf msg = []) :
    (contentOf msg = "" →
      runLoop O cfg (fuel + 1) st = runLoop O cfg fuel (afterModelState cfg st msg)) ∧
    (contentOf msg ≠ "" →
      runLoop O cfg (fuel + 1) st =
        (pushEvent (pushEvent (afterModelState cfg st msg)
           (.chunk cfg.sessionId (contentOf msg)))
         (.done cfg.sessionId (usagePT data) (usageCT data) (usageTT data)), .ok ())) := by
  rw [runLoop_succ_ok O cfg fuel st data msg hc1 hc2 hm hx]
  rw [if_pos (by simp [htc])]
  constructor
  · intro h
    rw [if_pos h]
  · intro h
    rw [if_neg h]

/-- C2 witness: at the empty-content response of spinOracles the loop
recurses into the next round. -/
theorem nontool_round_stops_iff_content_witness :
    runLoop spinOracles cfg0 (0 + 1) (initState "s" "u" []) =
      runLoop spinOracles cfg0 0
        (afterModelState cfg0 (initState "s" "u" []) (Json.obj [("content", Json.str "")])) :=
  (nontool_round_stops_iff_content spinOracles cfg0 0 (initState "s" "u" [])
    (mkData [("content", Json.str "")]) (Json.obj [("content", Json.str "")])
    rfl rfl rfl rfl rfl).1 rfl

/-- C3 (amended): for a round with N >= 1 tool calls during which no
cancellation fires and every approval wait resolves to approval,
exactly N tool_status(start), N tool_status(end) and N tool_result
events are emitted with the effective ids of the calls in call order, and
the conversation gains the assistant entry immediately followed by
exactly N role-tool entries whose ids match in the same order. -/
theorem tool_round_event_shape (O : Oracles) (cfg : TurnCfg) (fuel : Nat)
    (st : LoopState) (data msg : Json)
    (hc : ∀ k, O.cancel k = false) (ha : ∀ k, O.approval k = .decided true)
    (hm : O.model st.rounds = .ok data) (hx : extractMessage data = some msg)
    (htc : toolCallsOf msg ≠ []) :
    ∃ st', runLoop O cfg (fuel + 1) st = runLoop O cfg fuel st' ∧
      ∃ newMsgs newEvts,
        st'.messages = st.messages ++ assistantEntry msg :: newMsgs ∧
        st'.events = (afterModelState cfg st msg).events ++ newEvts ∧
        newMsgs.length = (toolCallsOf msg).length ∧
        (∀ m ∈ newMsgs, ∃ id out, m = Msg.tool id out) ∧
        toolEntryIds newMsgs = effIds O st.fk (toolCallsOf msg) ∧
        startIds newEvts = effIds O st.fk (toolCallsOf msg) ∧
        endIds newEvts = effIds O st.fk (toolCallsOf msg) ∧
        toolResultIds newEvts = effIds O st.fk (toolCallsOf msg) ∧
        (effIds O st.fk (toolCallsOf msg)).length = (toolCallsOf msg).length := by
  rw [runLoop_succ_ok O cfg fuel st data msg (hc st.ck) (hc (st.ck + 1)) hm hx]
  have hne : (toolCallsOf msg).isEmpty = false := by
    cases hh : toolCallsOf msg with
    | nil => exact absurd hh htc
    | cons a l => rfl
  rw [if_neg (by simp [hne])]
  obtain ⟨st', hrun, newMsgs, newEvts, hmsgs, hevts, hlen, hshape,
    htools, hstarts, hends, hress⟩ :=
    runCalls_approved_spec O cfg hc ha (toolCallsOf msg) (toolRoundStart cfg st msg)
  rw [hrun]
  have hfk : (toolRoundStart cfg st msg).fk = st.fk := by
    unfold toolRoundStart
    dsimp only
    exact afterModelState_fk cfg st msg
  rw [hfk] at htools hstarts hends hress
  refine ⟨st', rfl, newMsgs, newEvts, ?_, ?_, ?_, hshape, htools, hstarts, hends, hress,
    effIds_length O (toolCallsOf msg) st.fk⟩
  · rw [hmsgs]
    show (toolRoundStart cfg st msg).messages ++ newMsgs = _
    unfold toolRoundStart
    dsimp only
    rw [afterModelState_messages]
    simp
  · rw [hevts]
    rfl
  · rw [hlen]

/-- C3 witness: the first round of the always-tool oracle performs the
round and hands the produced state to the next iteration. -/
theorem tool_round_event_shape_witness :
    ∃ st', runLoop alwaysToolOracles cfg0 (19 + 1) (initState "s" "u" []) =
      runLoop alwaysToolOracles cfg0 19 st' := by
  obtain ⟨st', h1, -⟩ := tool_round_event_shape alwaysToolOracles cfg0 19
    (initState "s" "u" [])
    (mkData [("content", Json.str ""),
      ("tool_calls", Json.arr [mkToolCallJson "c1" "ReadFile" "x"])])
    alwaysToolMsg (fun _ => rfl) (fun _ => rfl) rfl rfl (List.cons_ne_nil _ _)
  exact ⟨st', h1⟩

/-- C4: a tool call whose approval resolves to false never reaches the
dispatcher (execute_tool): no dispatch is recorded, the synthesized
rejected ToolOutput is appended as the role-tool entry, the
tool_result event is still emitted with ok = false, and the call
processing continues (.isRight) with the next call / round. -/
theorem rejected_approval_no_dispatch (O : Oracles) (cfg : TurnCfg) (st : LoopState)
    (tc : Json)
    (hc : O.cancel st.ck = false)
    (hname : needs_approval (callName tc) = true)
    (hauto : cfg.autoApprove = false)
    (hrej : O.approval st.ak = .decided false) :
    (runCall O cfg st tc).isRight = true ∧
    (sumState (runCall O cfg st tc)).execCalls = st.execCalls ∧
    (sumState (runCall O cfg st tc)).messages =
      st.messages ++ [Msg.tool (effCallId O st.fk tc)
        ⟨false, "User rejected tool request.", ""⟩] ∧
    (sumState (runCall O cfg st tc)).events =
      st.events ++
        [Event.toolApproval cfg.sessionId (cfg.sessionId ++ ":" ++ effCallId O st.fk tc)
           (callName tc) (parsedArgs O tc),
         Event.toolStatus cfg.sessionId (effCallId O st.fk tc) "end" (callName tc)
           (tool_label (callName tc) (parsedArgs O tc)) (some false)
           (some "User rejected tool request."),
         Event.toolResult cfg.sessionId (effCallId O st.fk tc) (callName tc) false
           "User rejected tool request." ""] := by
  have hg : (needs_approval (callName tc) && !cfg.autoApprove) = true := by
    rw [hname, hauto]
    rfl
  have hcall := runCall_gated_decided O cfg st tc false hc hg hrej
  rw [finishCall_eq_rejected] at hcall
  rw [hcall]
  refine ⟨rfl, rfl, rfl, ?_⟩
  show (st.events ++ _) ++ _ = _
  simp

/-- C4 witness: the rejected gated Shell call at a concrete state. -/
theorem rejected_approval_no_dispatch_witness :
    (runCall rejectAllOracles cfg0 (initState "s" "u" []) gatedCall).isRight = true ∧
    (sumState (runCall rejectAllOracles cfg0 (initState "s" "u" []) gatedCall)).execCalls =
      (initState "s" "u" []).execCalls :=
  ⟨(rejected_approval_no_dispatch rejectAllOracles cfg0 (initState "s" "u" []) gatedCall
      rfl rfl rfl rfl).1,
   (rejected_approval_no_dispatch rejectAllOracles cfg0 (initState "s" "u" []) gatedCall
      rfl rfl rfl rfl).2.1⟩

/-- C5: when the cancellation token wins the approval wait, the pending
entry is removed from the approvals map (a later resolve for that
request id reports not-found), the call processing is terminal
(.isLeft, the turn returning Ok) with exactly one cancelled event
appended after the tool_approval event, and no conversation-state or
dispatch side effects occur. -/
theorem cancel_during_approval_removes_pending (O : Oracles) (cfg : TurnCfg)
    (st : LoopState) (tc : Json)
    (hc : O.cancel st.ck = false)
    (hname : needs_approval (callName tc) = true)
    (hauto : cfg.autoApprove = false)
    (hcanc : O.approval st.ak = .cancelledDuring) :
    (runCall O cfg st tc).isLeft = true ∧
    (cfg.sessionId ++ ":" ++ effCallId O st.fk tc) ∉
      (sumState (runCall O cfg st tc)).approvals ∧
    (tool_approval_respond (sumState (runCall O cfg st tc)).approvals
      (cfg.sessionId ++ ":" ++ effCallId O st.fk tc)).2 =
      .error "Approval request not found" ∧
    (sumState (runCall O cfg st tc)).events =
      st.events ++
        [Event.toolApproval cfg.sessionId (cfg.sessionId ++ ":" ++ effCallId O st.fk tc)
           (callName tc) (parsedArgs O tc),
         Event.cancelled cfg.sessionId] ∧
    (sumState (runCall O cfg st tc)).messages = st.messages ∧
    (sumState (runCall O cfg st tc)).execCalls = st.execCalls := by
  have hg : (needs_approval (callName tc) && !cfg.autoApprove) = true := by
    rw [hname, hauto]
    rfl
  have hcall := runCall_gated_cancelled O cfg st tc hc hg hcanc
  rw [hcall]
  have hnotin : (cfg.sessionId ++ ":" ++ effCallId O st.fk tc) ∉
      st.approvals.filter
        (fun k => k ≠ cfg.sessionId ++ ":" ++ effCallId O st.fk tc) := by
    simp [List.mem_filter]
  refine ⟨rfl, ?_, ?_, ?_, rfl, rfl⟩
  · show (cfg.sessionId ++ ":" ++ effCallId O st.fk tc) ∉
      st.approvals.filter (fun k => k ≠ cfg.sessionId ++ ":" ++ effCallId O st.fk tc)
    exact hnotin
  · show (tool_approval_respond (st.approvals.filter
      (fun k => k ≠ cfg.sessionId ++ ":" ++ effCallId O st.fk tc)) _).2 = _
    unfold tool_approval_respond
    rw [if_neg hnotin]
  · show (st.events ++ _) ++ _ = _
    simp [cancelStop, pushEvent]

/-- C5 witness: cancellation during the approval wait of a concrete
gated Shell call; the pending key s1:c9 ends up absent and a resolve
reports not-found. -/
theorem cancel_during_approval_removes_pending_witness :
    (runCall approvalCancelOracles cfg0 (initState "s" "u" []) gatedCall).isLeft = true ∧
    (tool_approval_respond
      (sumState (runCall approvalCancelOracles cfg0 (initState "s" "u" []) gatedCall)).approvals
      (cfg0.sessionId ++ ":" ++ effCallId approvalCancelOracles
        (initState "s" "u" []).fk gatedCall)).2 =
      .error "Approval request not found" :=
  ⟨(cancel_during_approval_removes_pending approvalCancelOracles cfg0
      (initState "s" "u" []) gatedCall rfl rfl rfl rfl).1,
   (cancel_during_approval_removes_pending approvalCancelOracles cfg0
      (initState "s" "u" []) gatedCall rfl rfl rfl rfl).2.2.1⟩

/-- C6: cancellation observed before any round yields exactly the
cancelled event, outcome Ok, and zero side effects (no messages, no
rounds, no dispatches); and globally, once a cancelled event is
emitted it is the last event of the turn and the turn returns Ok —
at most one cancelled event ever occurs. -/
theorem cancellation_is_terminal :
    (∀ (O : Oracles) (cfg : TurnCfg) (sp um : String) (ap0 : List String),
      O.cancel 0 = true →
      (stream_chat O cfg sp um ap0).2 = .ok () ∧
      (stream_chat O cfg sp um ap0).1.events = [Event.cancelled cfg.sessionId] ∧
      (stream_chat O cfg sp um ap0).1.messages = (initState sp um ap0).messages ∧
      (stream_chat O cfg sp um ap0).1.rounds = 0 ∧
      (stream_chat O cfg sp um ap0).1.execCalls = []) ∧
    (∀ (O : Oracles) (cfg : TurnCfg) (fuel : Nat) (st : LoopState),
      countCancelled st.events = 0 →
      countCancelled (runLoop O cfg fuel st).1.events = 0 ∨
      ((runLoop O cfg fuel st).2 = .ok () ∧
       ∃ pre, (runLoop O cfg fuel st).1.events = pre ++ [Event.cancelled cfg.sessionId] ∧
         countCancelled pre = 0)) := by
  constructor
  · intro O cfg sp um ap0 h
    have heq : stream_chat O cfg sp um ap0 =
        (cancelStop cfg (initState sp um ap0), .ok ()) := by
      unfold stream_chat
      exact runLoop_cancel_top O cfg MAX_TOOL_STEPS (initState sp um ap0)
        (by decide) h
    rw [heq]
    refine ⟨rfl, ?_, rfl, rfl, rfl⟩
    show (initState sp um ap0).events ++ [Event.cancelled cfg.sessionId] = _
    rfl
  · exact runLoop_cancelled_shape

/-- C6 witness: a token fired before the first checkpoint at concrete
inputs. -/
theorem cancellation_is_terminal_witness :
    (stream_chat cancelledOracles cfg0 "s" "u" []).2 = .ok () ∧
    (stream_chat cancelledOracles cfg0 "s" "u" []).1.events =
      [Event.cancelled cfg0.sessionId] ∧
    (stream_chat cancelledOracles cfg0 "s" "u" []).1.rounds = 0 :=
  ⟨(cancellation_is_terminal.1 cancelledOracles cfg0 "s" "u" [] rfl).1,
   (cancellation_is_terminal.1 cancelledOracles cfg0 "s" "u" [] rfl).2.1,
   (cancellation_is_terminal.1 cancelledOracles cfg0 "s" "u" [] rfl).2.2.2.1⟩
